import Mathlib

/-!
# Browser-capability compatibility checker: formal model

A shallow embedding of the capability compatibility checker that the
repository's ESLint configuration wires up (`eslint-plugin-compat` with
`settings.browsers`), together with the repository's demo component
`src/app/fancy-apis.tsx` and its configured Target Profile
`["Chrome >= 60", "Firefox >= 55", "Safari >= 11", "Edge >= 79"]`.

The checker implementation itself is a third-party plugin that is not part
of the repository source, so its behaviour (pattern matching, version
evaluation, configuration resolution, reporting) is modelled from the
specification.  The repository's own data (the configured browser targets
and the six capability references in the demo component, with the minimum
supported versions documented in its comments) is embedded from the source.
-/

namespace Checkin

/-- A version is a list of numeric dot-separated components,
e.g. `"12.1"` is `[12, 1]`. -/
abbrev Version := List Nat

/-- Modelled from the spec: numeric, dot-separated version comparison,
left-to-right, missing trailing components treated as zero.
`verLt a b` decides whether version `a` is strictly lower than `b`. -/
def verLt : Version → Version → Bool
  | [], b => b.any (fun y => 0 < y)
  | x :: xs, [] => if 0 < x then false else verLt xs []
  | x :: xs, y :: ys =>
    if x < y then true
    else if y < x then false
    else verLt xs ys

/-- The spec's description of version comparison, stated directly: `a` is
lower than `b` when at some component index the versions agree on every
earlier component and `a`'s component is smaller, where a missing component
reads as zero.  Used only to check that `verLt` refines the spec's words. -/
def verLtSpec (a b : Version) : Prop :=
  ∃ i, (∀ j < i, a.getD j 0 = b.getD j 0) ∧ a.getD i 0 < b.getD i 0

/-- Modelled from the spec: a Capability Record identifies one checkable API
surface: a qualified name and a per-runtime minimum-supported-version table
(runtime name → minimum version); a runtime absent from the table is fully
unsupported. -/
structure CapabilityRecord where
  qualifiedName : String
  support : List (String × Version)
  deriving Repr, DecidableEq

/-- Modelled from the spec: a Target Profile is a set of
(runtime name, required version) pairs the checking run must satisfy. -/
abbrev TargetProfile := List (String × Version)

/-- Association-list lookup of a runtime's declared minimum version in a
Capability Record's support table. -/
def lookupSupport (support : List (String × Version)) (runtime : String) :
    Option Version :=
  (support.find? (fun p => p.1 == runtime)).map (·.2)

/-- Modelled from the spec: the Version Evaluator's per-runtime test.  A
runtime of the Target Profile fails a record when the record declares no
minimum version for it (fully unsupported, fails unconditionally), or when
the profile's required version is lower than the declared minimum. -/
def runtimeFails (rec : CapabilityRecord) (runtime : String)
    (required : Version) : Bool :=
  match lookupSupport rec.support runtime with
  | none => true
  | some minV => verLt required minV

/-- Modelled from the spec: the Version Evaluator's output — the subset of
runtimes in the Target Profile that fail the record, empty if all pass. -/
def failingRuntimes (rec : CapabilityRecord) (profile : TargetProfile) :
    TargetProfile :=
  profile.filter (fun p => runtimeFails rec p.1 p.2)

/-- Modelled from the spec: one expression of a parsed source unit, as the
Pattern Matcher sees it: the qualified name it references, its source
location, and whether the use is wrapped in a feature-detection guard (a
purely syntactic matcher must ignore this last field). -/
structure Expr where
  name : String
  line : Nat
  col : Nat
  guarded : Bool
  deriving Repr, DecidableEq

/-- Modelled from the spec: one source unit — a file path and its parsed
sequence of capability-referencing expressions. -/
structure SourceUnit where
  path : String
  exprs : List Expr
  deriving Repr, DecidableEq

/-- Modelled from the spec: the Capability Database, a read-only list of
Capability Records looked up by qualified name. -/
abbrev CapabilityDatabase := List CapabilityRecord

/-- Lookup of a qualified name in the Capability Database. -/
def dbLookup (db : CapabilityDatabase) (name : String) :
    Option CapabilityRecord :=
  db.find? (fun r => r.qualifiedName == name)

/-- Modelled from the spec: a Finding — source location, matched capability,
and the subset of the Target Profile that fails the record's minimum. -/
structure Finding where
  path : String
  line : Nat
  col : Nat
  capability : String
  failing : TargetProfile
  deriving Repr, DecidableEq

/-- Modelled from the spec: the Pattern Matcher — purely syntactic: it pairs
each expression whose qualified name has a Capability Database entry with its
matched record and location, ignoring guards. -/
def matchUnit (db : CapabilityDatabase) (u : SourceUnit) :
    List (CapabilityRecord × Nat × Nat) :=
  u.exprs.filterMap (fun e =>
    (dbLookup db e.name).map (fun r => (r, e.line, e.col)))

/-- Modelled from the spec: the per-reference result of scanning — a
recognized reference whose record has at least one failing runtime yields
one Finding listing those runtimes; otherwise none. -/
def scanExpr (db : CapabilityDatabase) (profile : TargetProfile)
    (path : String) (e : Expr) : Option Finding :=
  match dbLookup db e.name with
  | none => none
  | some r =>
    let fails := failingRuntimes r profile
    if fails.isEmpty then none
    else some ⟨path, e.line, e.col, r.qualifiedName, fails⟩

/-- Modelled from the spec: scanning one source unit produces its Findings,
one per recognized incompatible reference. -/
def scanUnit (db : CapabilityDatabase) (profile : TargetProfile)
    (u : SourceUnit) : List Finding :=
  u.exprs.filterMap (scanExpr db profile u.path)

/-- Modelled from the spec: scanning a collection of source units
concatenates each unit's Findings. -/
def scanUnits (db : CapabilityDatabase) (profile : TargetProfile)
    (units : List SourceUnit) : List Finding :=
  units.flatMap (scanUnit db profile)

/-- Split a character list at every occurrence of a separator character. -/
def splitOnChar (sep : Char) : List Char → List (List Char)
  | [] => [[]]
  | c :: cs =>
    match splitOnChar sep cs with
    | [] => if c = sep then [[], []] else [[c]]
    | h :: t => if c = sep then [] :: h :: t else (c :: h) :: t

/-- Numeric value of a decimal digit character, `none` otherwise. -/
def digitVal? (c : Char) : Option Nat :=
  if c.isDigit then some (c.toNat - 48) else none

/-- Accumulator of the decimal-numeral parser. -/
def parseNatAux : List Char → Nat → Option Nat
  | [], acc => some acc
  | c :: cs, acc =>
    match digitVal? c with
    | none => none
    | some d => parseNatAux cs (acc * 10 + d)

/-- Parse a non-empty string of decimal digits as a natural number. -/
def parseNatDigits : List Char → Option Nat
  | [] => none
  | cs => parseNatAux cs 0

/-- Parse one dot-separated numeric version string, e.g. `"12.1"`. -/
def parseVersion (cs : List Char) : Option Version :=
  (splitOnChar '.' cs).mapM parseNatDigits

/-- Modelled from the spec: parse one browser-target constraint string of
the form used by the repository's `settings.browsers`,
e.g. `"Chrome >= 60"`: a runtime name, the token `>=`, and a version. -/
def parseConstraint (s : String) : Option (String × Version) :=
  match splitOnChar ' ' s.data with
  | [name, ['>', '='], ver] =>
    (parseVersion ver).map (fun v => (String.mk name, v))
  | _ => none

/-- Parse every constraint of a browser-target list; `none` as soon as any
single constraint is unparseable. -/
def parseProfile : List String → Option TargetProfile
  | [] => some []
  | s :: ss =>
    match parseConstraint s, parseProfile ss with
    | some c, some p => some (c :: p)
    | _, _ => none

/-- Modelled from the spec: configuration errors that abort the run before
any scanning begins. -/
inductive ConfigError where
  | missingProfile
  | emptyProfile
  | malformedConstraint
  deriving Repr, DecidableEq

/-- Modelled from the spec: Configuration Resolution — an unsupplied, empty
or malformed Target Profile is a hard configuration error, with no silent
defaulting of browser targets. -/
def configResolve (browsers : Option (List String)) :
    Except ConfigError TargetProfile :=
  match browsers with
  | none => .error .missingProfile
  | some [] => .error .emptyProfile
  | some bs =>
    match parseProfile bs with
    | none => .error .malformedConstraint
    | some p => .ok p

/-- Modelled from the spec: a whole checking run — resolve the configuration
first; only on success scan the source units. -/
def runChecker (db : CapabilityDatabase) (browsers : Option (List String))
    (units : List SourceUnit) : Except ConfigError (List Finding) :=
  match configResolve browsers with
  | .error e => .error e
  | .ok profile => .ok (scanUnits db profile units)

/-- Modelled from the spec: the single global severity level of a run. -/
inductive Severity where
  | informational
  | warning
  | failing
  deriving Repr, DecidableEq

/-- Numeric rank of a severity level, for the meets-or-exceeds order. -/
def Severity.rank : Severity → Nat
  | .informational => 0
  | .warning => 1
  | .failing => 2

/-- Modelled from the spec: the Reporter emits every Finding tagged with the
run's configured global severity. -/
def reportedFindings (sev : Severity) (fs : List Finding) :
    List (Finding × Severity) :=
  fs.map (fun f => (f, sev))

/-- Modelled from the spec: the process exit code — 0 when no emitted
Finding meets or exceeds the failing severity, non-zero otherwise. -/
def exitCode (sev : Severity) (fs : List Finding) : Nat :=
  if (reportedFindings sev fs).any
      (fun p => Severity.failing.rank ≤ p.2.rank) then 1 else 0

/-! ## Repository data

The Target Profile configured in the repository's ESLint config
(`settings.browsers`), the six capability references of the demo component
`src/app/fancy-apis.tsx`, and a Capability Database holding the minimum
supported versions that the demo component's comments document. -/

/-- The browser-target strings of `settings.browsers` in the repository's
ESLint configuration. -/
def repoBrowsers : List String :=
  ["Chrome >= 60", "Firefox >= 55", "Safari >= 11", "Edge >= 79"]

/-- The repository's Target Profile: Chrome 60, Firefox 55, Safari 11,
Edge 79. -/
def repoProfile : TargetProfile :=
  [("Chrome", [60]), ("Firefox", [55]), ("Safari", [11]), ("Edge", [79])]

/-- `src/app/fancy-apis.tsx`: the six capability references of the
`FancyFeatures` demo component, in source order with their locations. -/
def fancyApisUnit : SourceUnit :=
  { path := "src/app/fancy-apis.tsx"
    exprs :=
      [ ⟨"document.startViewTransition", 8, 5, false⟩
      , ⟨"scheduler.postTask", 15, 5, false⟩
      , ⟨"navigation.navigate", 22, 5, false⟩
      , ⟨"window.showOpenFilePicker", 27, 26, false⟩
      , ⟨"EyeDropper", 33, 27, false⟩
      , ⟨"structuredClone", 40, 12, false⟩ ] }

/-- Modelled from the spec and the demo component's comments: the Capability
Database entries for the six APIs the demo exercises.  The five Chrome-only
APIs declare a Chrome minimum (111, 94, 102, 86, 95) and no Firefox/Safari
support; `structuredClone` declares Chrome 98, Firefox 94, Safari 15.4. -/
def demoDb : CapabilityDatabase :=
  [ ⟨"document.startViewTransition", [("Chrome", [111])]⟩
  , ⟨"scheduler.postTask", [("Chrome", [94])]⟩
  , ⟨"navigation.navigate", [("Chrome", [102])]⟩
  , ⟨"window.showOpenFilePicker", [("Chrome", [86])]⟩
  , ⟨"EyeDropper", [("Chrome", [95])]⟩
  , ⟨"structuredClone",
      [("Chrome", [98]), ("Firefox", [94]), ("Safari", [15, 4])]⟩ ]

/-- Modelled from the spec's example: the `AbortController` record — minimum
Safari 12.1, Chrome 66, Firefox 57, and an Edge minimum at most 79. -/
def abortControllerRec : CapabilityRecord :=
  ⟨"AbortController",
    [("Chrome", [66]), ("Firefox", [57]), ("Safari", [12, 1]), ("Edge", [16])]⟩

/-- Modelled from the spec's example: the `Array.prototype.includes` record —
supported since Safari 9, Chrome 47, Firefox 43, Edge 14. -/
def includesRec : CapabilityRecord :=
  ⟨"Array.prototype.includes",
    [("Chrome", [47]), ("Firefox", [43]), ("Safari", [9]), ("Edge", [14])]⟩

/-- A second source unit, used to exercise order independence. -/
def cloneOnlyUnit : SourceUnit :=
  { path := "src/app/other.tsx", exprs := [⟨"structuredClone", 3, 10, false⟩] }

/-! ## Theorems -/

/-- A getter on the tail reads one component further in the original list,
with a missing component still reading as zero. -/
theorem getD_tail_eq (a : List Nat) (j : Nat) :
    a.tail.getD j 0 = a.getD (j + 1) 0 := by
  cases a <;> simp [List.getD]

/-- Unfolding `verLtSpec` by one component: `a` is lower than `b` exactly
when the leading components (zero when missing) compare strictly, or agree
and the tails compare lower. -/
theorem verLtSpec_shift (a b : Version) :
    verLtSpec a b ↔
      a.getD 0 0 < b.getD 0 0 ∨
        (a.getD 0 0 = b.getD 0 0 ∧ verLtSpec a.tail b.tail) := by
  constructor
  · rintro ⟨i, hag, hlt⟩
    cases i with
    | zero => exact Or.inl hlt
    | succ i' =>
      refine Or.inr ⟨hag 0 (Nat.succ_pos _), ⟨i', fun j hj => ?_, ?_⟩⟩
      · rw [getD_tail_eq, getD_tail_eq]
        exact hag (j + 1) (by omega)
      · rw [getD_tail_eq, getD_tail_eq]
        exact hlt
  · rintro (h | ⟨heq, i, hag, hlt⟩)
    · exact ⟨0, fun j hj => absurd hj (Nat.not_lt_zero j), h⟩
    · refine ⟨i + 1, fun j hj => ?_, ?_⟩
      · cases j with
        | zero => exact heq
        | succ j' =>
          rw [← getD_tail_eq, ← getD_tail_eq]
          exact hag j' (by omega)
      · rw [← getD_tail_eq, ← getD_tail_eq]
        exact hlt

/-- The empty version is lower than `b` exactly when `b` has a positive
component. -/
theorem verLt_nil_iff (b : Version) : verLt [] b = true ↔ verLtSpec [] b := by
  induction b with
  | nil =>
    simp only [verLt, List.any_nil, verLtSpec, List.getD_nil]
    simp
  | cons y ys ih =>
    rw [verLtSpec_shift]
    simp only [List.getD_nil, List.tail_nil, List.getD_cons_zero,
      List.tail_cons]
    have hany : verLt [] (y :: ys) = ((0 < y : Bool) || verLt [] ys) := by
      simp [verLt]
    rw [hany]
    simp only [Bool.or_eq_true, decide_eq_true_eq, ih]
    constructor
    · rintro (h | h)
      · exact Or.inl h
      · by_cases hy : 0 < y
        · exact Or.inl hy
        · exact Or.inr ⟨by omega, h⟩
    · rintro (h | ⟨_, h⟩)
      · exact Or.inl h
      · exact Or.inr h

/-- The executable version comparison `verLt` decides exactly the spec's
left-to-right, zero-padded numeric comparison `verLtSpec`. -/
theorem verLt_iff (a b : Version) : verLt a b = true ↔ verLtSpec a b := by
  induction a generalizing b with
  | nil => exact verLt_nil_iff b
  | cons x xs ih =>
    cases b with
    | nil =>
      rw [verLtSpec_shift]
      simp only [List.getD_cons_zero, List.getD_nil, List.tail_cons,
        List.tail_nil]
      by_cases hx : 0 < x
      · simp [verLt, hx]
        omega
      · have hx0 : x = 0 := by omega
        subst hx0
        simp [verLt, ih]
    | cons y ys =>
      rw [verLtSpec_shift]
      simp only [List.getD_cons_zero, List.tail_cons]
      by_cases h1 : x < y
      · simp [verLt, h1]
      · by_cases h2 : y < x
        · simp [verLt, h1, h2]
          omega
        · have hxy : x = y := by omega
          subst hxy
          simp [verLt, h1, h2, ih]

/-- A record found in the database carries the looked-up qualified name. -/
theorem dbLookup_name {db : CapabilityDatabase} {n : String}
    {r : CapabilityRecord} (h : dbLookup db n = some r) :
    r.qualifiedName = n := by
  unfold dbLookup at h
  have := List.find?_some h
  exact eq_of_beq this

/-- C1: for every (runtime, required-version) pair of the Target Profile and
every Capability Record, the Version Evaluator marks the runtime as failing
iff the record declares no minimum version for it (fully unsupported), or it
declares one and the required version is lower under the numeric
dot-separated left-to-right comparison with missing trailing components read
as zero. -/
theorem version_evaluator_marks_failing_iff (rec : CapabilityRecord)
    (profile : TargetProfile) (x : String × Version) :
    x ∈ failingRuntimes rec profile ↔
      x ∈ profile ∧
        (lookupSupport rec.support x.1 = none ∨
          ∃ minV, lookupSupport rec.support x.1 = some minV ∧
            verLtSpec x.2 minV) := by
  unfold failingRuntimes
  rw [List.mem_filter]
  refine and_congr_right fun _ => ?_
  unfold runtimeFails
  cases h : lookupSupport rec.support x.1 with
  | none => simp
  | some m => simp [verLt_iff]

/-- C2: if every runtime of the Target Profile meets or exceeds a record's
minimum supported version, then scanning any source unit yields no Finding
for that record. -/
theorem all_pass_no_findings (db : CapabilityDatabase) (p : TargetProfile)
    (u : SourceUnit) (r : CapabilityRecord)
    (hr : dbLookup db r.qualifiedName = some r)
    (hpass : ∀ x ∈ p, runtimeFails r x.1 x.2 = false) :
    (scanUnit db p u).filter (fun f => f.capability == r.qualifiedName)
      = [] := by
  rw [List.filter_eq_nil_iff]
  intro f hf
  simp only [beq_iff_eq]
  intro hcap
  rcases List.mem_filterMap.mp hf with ⟨e, _, hse⟩
  unfold scanExpr at hse
  cases hdl : dbLookup db e.name with
  | none => rw [hdl] at hse; exact Option.noConfusion hse
  | some rec =>
    rw [hdl] at hse
    simp only at hse
    by_cases hemp : (failingRuntimes rec p).isEmpty
    · rw [if_pos hemp] at hse; exact Option.noConfusion hse
    · rw [if_neg hemp] at hse
      have hfc : f.capability = rec.qualifiedName := by
        cases hse; rfl
      have hname : rec.qualifiedName = e.name := dbLookup_name hdl
      have hen : e.name = r.qualifiedName := by rw [← hname, ← hfc, hcap]
      rw [hen, hr] at hdl
      cases hdl
      apply hemp
      rw [List.isEmpty_iff]
      unfold failingRuntimes
      rw [List.filter_eq_nil_iff]
      intro x hx
      simp [hpass x hx]

/-- C3: if at least one runtime of the Target Profile is below a matched
record's minimum, a reference to it yields exactly one Finding, and a source
unit consisting of that reference scans to exactly that Finding, which lists
exactly the failing subset of the profile. -/
theorem some_fail_one_finding (db : CapabilityDatabase) (p : TargetProfile)
    (path : String) (e : Expr) (r : CapabilityRecord)
    (hr : dbLookup db e.name = some r)
    (hfail : failingRuntimes r p ≠ []) :
    scanExpr db p path e =
      some ⟨path, e.line, e.col, r.qualifiedName,
        p.filter (fun x => runtimeFails r x.1 x.2)⟩ ∧
    scanUnit db p ⟨path, [e]⟩ =
      [⟨path, e.line, e.col, r.qualifiedName,
        p.filter (fun x => runtimeFails r x.1 x.2)⟩] := by
  have hse : scanExpr db p path e =
      some ⟨path, e.line, e.col, r.qualifiedName,
        p.filter (fun x => runtimeFails r x.1 x.2)⟩ := by
    unfold scanExpr
    rw [hr]
    simp only
    rw [if_neg (by rw [List.isEmpty_iff]; exact hfail)]
    rfl
  refine ⟨hse, ?_⟩
  unfold scanUnit
  simp [List.filterMap_cons, hse]

/-- One unparseable constraint makes the whole profile unparseable. -/
theorem parseProfile_none {bs : List String} {s : String} (hs : s ∈ bs)
    (hps : parseConstraint s = none) : parseProfile bs = none := by
  induction bs with
  | nil => cases hs
  | cons b t ih =>
    rcases List.mem_cons.mp hs with rfl | hmem
    · simp [parseProfile, hps]
    · unfold parseProfile
      rw [ih hmem]
      cases parseConstraint b <;> rfl

/-- C4: a missing, empty or malformed Target Profile is a hard configuration
error — the run fails during Configuration Resolution, returning an error
value that carries no Findings, so no scan is performed and no browser
targets are silently defaulted. -/
theorem config_error_no_scan (db : CapabilityDatabase)
    (units : List SourceUnit) (browsers : Option (List String))
    (h : browsers = none ∨ browsers = some [] ∨
      ∃ bs, browsers = some bs ∧ ∃ s ∈ bs, parseConstraint s = none) :
    ∃ e, runChecker db browsers units = .error e := by
  rcases h with rfl | rfl | ⟨bs, rfl, s, hs, hps⟩
  · exact ⟨.missingProfile, rfl⟩
  · exact ⟨.emptyProfile, rfl⟩
  · refine ⟨.malformedConstraint, ?_⟩
    have hnone := parseProfile_none hs hps
    cases bs with
    | nil => cases hs
    | cons b t =>
      unfold runChecker configResolve
      simp [hnone]

/-- C5: a reference whose qualified name has no Capability Database entry is
silently ignored — it produces no Finding and raises no error: the
per-reference scan is `none` and a unit holding only that reference scans to
the empty Finding list. -/
theorem unknown_reference_ignored (db : CapabilityDatabase)
    (p : TargetProfile) (path : String) (e : Expr)
    (h : dbLookup db e.name = none) :
    scanExpr db p path e = none ∧ scanUnit db p ⟨path, [e]⟩ = [] := by
  have hse : scanExpr db p path e = none := by
    unfold scanExpr
    rw [h]
  exact ⟨hse, by simp [scanUnit, List.filterMap_cons, hse]⟩

/-- C6: the Pattern Matcher is purely syntactic — reassigning the
feature-detection guard flag of every expression in a unit (guarded versus
unguarded uses of the same qualified name) changes neither the match list
nor the scanned Findings. -/
theorem matcher_ignores_guards (db : CapabilityDatabase) (p : TargetProfile)
    (u : SourceUnit) (g : Expr → Bool) :
    matchUnit db
        ⟨u.path, u.exprs.map (fun e => ⟨e.name, e.line, e.col, g e⟩)⟩ =
      matchUnit db u ∧
    scanUnit db p
        ⟨u.path, u.exprs.map (fun e => ⟨e.name, e.line, e.col, g e⟩)⟩ =
      scanUnit db p u := by
  constructor
  · unfold matchUnit
    rw [List.filterMap_map]
    rfl
  · unfold scanUnit
    rw [List.filterMap_map]
    rfl

/-- C7: the checker is deterministic — runs on equal source inputs and equal
Capability Databases produce identical match sets and identical Finding
sets. -/
theorem checker_deterministic (db₁ db₂ : CapabilityDatabase)
    (p₁ p₂ : TargetProfile) (us₁ us₂ : List SourceUnit)
    (hdb : db₁ = db₂) (hp : p₁ = p₂) (hus : us₁ = us₂) :
    us₁.map (matchUnit db₁) = us₂.map (matchUnit db₂) ∧
    scanUnits db₁ p₁ us₁ = scanUnits db₂ p₂ us₂ := by
  subst hdb
  subst hp
  subst hus
  exact ⟨rfl, rfl⟩

/-- C8: scanning the source units in any other order yields the same Finding
set, compared as an unordered collection (multiset). -/
theorem order_independent (db : CapabilityDatabase) (p : TargetProfile)
    (us₁ us₂ : List SourceUnit) (h : us₁.Perm us₂) :
    (scanUnits db p us₁ : Multiset Finding) =
      (scanUnits db p us₂ : Multiset Finding) :=
  Multiset.coe_eq_coe.mpr (h.flatMap_right (scanUnit db p))

/-- C9: the exit code is 0 iff no emitted Finding meets or exceeds the
failing severity; when the configured global severity is below failing, the
run exits 0 while still emitting every Finding. -/
theorem exit_code_contract (sev : Severity) (fs : List Finding) :
    (exitCode sev fs = 0 ↔
      ∀ x ∈ reportedFindings sev fs, x.2.rank < Severity.failing.rank) ∧
    (sev.rank < Severity.failing.rank →
      exitCode sev fs = 0 ∧
        reportedFindings sev fs = fs.map (fun f => (f, sev))) := by
  constructor
  · unfold exitCode
    by_cases hany : (reportedFindings sev fs).any
        (fun p => Severity.failing.rank ≤ p.2.rank)
    · rw [if_pos hany]
      simp only [List.any_eq_true, decide_eq_true_eq] at hany
      rcases hany with ⟨x, hx, hle⟩
      exact ⟨fun h => absurd h one_ne_zero,
        fun hall => absurd hle (not_le.mpr (hall x hx))⟩
    · rw [if_neg hany]
      simp only [List.any_eq_true, decide_eq_true_eq, not_exists] at hany
      push_neg at hany
      exact ⟨fun _ x hx => hany x hx, fun _ => rfl⟩
  · intro h
    have hfalse : ((reportedFindings sev fs).any
        (fun p => Severity.failing.rank ≤ p.2.rank)) = false := by
      rw [List.any_eq_false]
      intro x hx
      rcases List.mem_map.mp hx with ⟨f, _, rfl⟩
      simp [not_le.mpr h]
    refine ⟨?_, rfl⟩
    unfold exitCode
    rw [hfalse]
    rfl

/-- C10: under the repository's Target Profile (Chrome 60, Firefox 55,
Safari 11, Edge 79), scanning the demo component `src/app/fancy-apis.tsx`
yields exactly six Findings, one per capability reference in source order,
each with a non-empty set of failing runtimes. -/
theorem demo_component_six_findings :
    (scanUnit demoDb repoProfile fancyApisUnit).length = 6 ∧
    (scanUnit demoDb repoProfile fancyApisUnit).map (fun f => f.capability) =
      ["document.startViewTransition", "scheduler.postTask",
        "navigation.navigate", "window.showOpenFilePicker", "EyeDropper",
        "structuredClone"] ∧
    ∀ f ∈ scanUnit demoDb repoProfile fancyApisUnit, f.failing ≠ [] := by
  decide

/-- The repository's configured browser-target strings resolve to exactly
its Target Profile. -/
theorem repoBrowsers_resolve :
    configResolve (some repoBrowsers) = .ok repoProfile := by
  rfl

/-- Witness for C2 at the spec's `Array.prototype.includes` example: under
the repository profile every runtime passes, and a unit referencing it scans
to no Finding for the record. -/
theorem all_pass_no_findings_witness :
    dbLookup [includesRec] includesRec.qualifiedName = some includesRec ∧
    (∀ x ∈ repoProfile, runtimeFails includesRec x.1 x.2 = false) ∧
    (scanUnit [includesRec] repoProfile
        ⟨"src/app/page.tsx", [⟨"Array.prototype.includes", 3, 1, false⟩]⟩).filter
      (fun f => f.capability == includesRec.qualifiedName) = [] :=
  ⟨by decide, by decide,
    all_pass_no_findings [includesRec] repoProfile
      ⟨"src/app/page.tsx", [⟨"Array.prototype.includes", 3, 1, false⟩]⟩
      includesRec (by decide) (by decide)⟩

/-- Witness for C3 at the spec's `AbortController` example: Chrome, Firefox
and Safari fail, Edge passes, and one Finding listing exactly the failing
runtimes is produced. -/
theorem some_fail_one_finding_witness :
    dbLookup [abortControllerRec] "AbortController" = some abortControllerRec ∧
    failingRuntimes abortControllerRec repoProfile ≠ [] ∧
    scanUnit [abortControllerRec] repoProfile
        ⟨"src/app/page.tsx", [⟨"AbortController", 5, 9, false⟩]⟩ =
      [⟨"src/app/page.tsx", 5, 9, "AbortController",
        repoProfile.filter
          (fun x => runtimeFails abortControllerRec x.1 x.2)⟩] :=
  ⟨by decide, by decide,
    (some_fail_one_finding [abortControllerRec] repoProfile
      "src/app/page.tsx" ⟨"AbortController", 5, 9, false⟩ abortControllerRec
      (by decide) (by decide)).2⟩

/-- Witness for C4: an unparseable version constraint makes the whole run
fail with a configuration error. -/
theorem config_error_no_scan_witness :
    parseConstraint "Chrome >= sixty" = none ∧
    ∃ e, runChecker [] (some ["Chrome >= sixty"]) [] = .error e :=
  ⟨by decide,
    config_error_no_scan [] [] (some ["Chrome >= sixty"])
      (Or.inr (Or.inr ⟨["Chrome >= sixty"], rfl, "Chrome >= sixty",
        by decide, by decide⟩))⟩

/-- Witness for C5 at the guide's `Promise.withResolvers` example: the name
is absent from the database, so its reference scans to nothing. -/
theorem unknown_reference_ignored_witness :
    dbLookup demoDb "Promise.withResolvers" = none ∧
    (scanExpr demoDb repoProfile "src/app/page.tsx"
        ⟨"Promise.withResolvers", 7, 3, false⟩ = none ∧
      scanUnit demoDb repoProfile
        ⟨"src/app/page.tsx", [⟨"Promise.withResolvers", 7, 3, false⟩]⟩
        = []) :=
  ⟨by decide,
    unknown_reference_ignored demoDb repoProfile "src/app/page.tsx"
      ⟨"Promise.withResolvers", 7, 3, false⟩ (by decide)⟩

/-- Witness for C7 at the repository's own inputs. -/
theorem checker_deterministic_witness :
    [fancyApisUnit].map (matchUnit demoDb) =
      [fancyApisUnit].map (matchUnit demoDb) ∧
    scanUnits demoDb repoProfile [fancyApisUnit] =
      scanUnits demoDb repoProfile [fancyApisUnit] :=
  checker_deterministic demoDb demoDb repoProfile repoProfile
    [fancyApisUnit] [fancyApisUnit] rfl rfl rfl

/-- Witness for C8: swapping two concrete source units leaves the scanned
Finding multiset unchanged. -/
theorem order_independent_witness :
    (scanUnits demoDb repoProfile [fancyApisUnit, cloneOnlyUnit] :
        Multiset Finding) =
      (scanUnits demoDb repoProfile [cloneOnlyUnit, fancyApisUnit] :
        Multiset Finding) :=
  order_independent demoDb repoProfile
    [fancyApisUnit, cloneOnlyUnit] [cloneOnlyUnit, fancyApisUnit]
    (List.Perm.swap cloneOnlyUnit fancyApisUnit [])

/-- Witness for C9 at severity `warning` and the demo component's
Findings. -/
theorem exit_code_contract_witness :
    (exitCode .warning (scanUnit demoDb repoProfile fancyApisUnit) = 0 ↔
      ∀ x ∈ reportedFindings .warning
          (scanUnit demoDb repoProfile fancyApisUnit),
        x.2.rank < Severity.failing.rank) ∧
    (Severity.warning.rank < Severity.failing.rank →
      exitCode .warning (scanUnit demoDb repoProfile fancyApisUnit) = 0 ∧
        reportedFindings .warning (scanUnit demoDb repoProfile fancyApisUnit)
          = (scanUnit demoDb repoProfile fancyApisUnit).map
              (fun f => (f, Severity.warning))) :=
  exit_code_contract Severity.warning
    (scanUnit demoDb repoProfile fancyApisUnit)

end Checkin
